import Mathlib

/-!
Shallow embedding of the oncotree-fhir converter (two near-duplicate Python
source files, `oncotree_fhir.py` and `oncotree-fhir.py`) and proofs about it.

Strings are modelled as `List Char` (`Str`); Python `str.replace`, `str.rstrip`,
`str.join`, substring membership and lexicographic comparison are embedded as
executable functions on `Str`.  Fallible Python code (KeyError / IndexError) is
embedded with `Option`/`Except`.  Network requests and file writes are
modelled as an explicit event trace returned alongside the result.
-/

abbrev Str := List Char

def str (s : String) : Str := s.toList

/-- Python `s.replace(pat, rep)` for a non-empty pattern: scan left to right,
replacing non-overlapping occurrences.  Implemented with a fuel argument
(initialised to `s.length`, always sufficient) so that it is structurally
recursive and computes by `decide`/`rfl`. -/
def pyReplaceFuel : Nat → Str → Str → Str → Str
  | 0, s, _, _ => s
  | _ + 1, [], _, _ => []
  | fuel + 1, c :: rest, pat, rep =>
    if pat ≠ [] ∧ pat.isPrefixOf (c :: rest) then
      rep ++ pyReplaceFuel fuel ((c :: rest).drop pat.length) pat rep
    else
      c :: pyReplaceFuel fuel rest pat rep

/-- Python `s.replace(pat, rep)`. -/
def pyReplace (s pat rep : Str) : Str := pyReplaceFuel s.length s pat rep

/-- Python `s.rstrip("/")`: remove all trailing `'/'` characters. -/
def rstrip_slash (s : Str) : Str := (s.reverse.dropWhile (fun c => c = '/')).reverse

/-- Python string `<=` (lexicographic by code point), as a Bool. -/
def strLe : Str → Str → Bool
  | [], _ => true
  | _ :: _, [] => false
  | a :: as, b :: bs => if a < b then true else if b < a then false else strLe as bs

/-- Python `pat in s` (substring test). -/
def isSubstring (pat : Str) : Str → Bool
  | [] => pat.isEmpty
  | c :: rest => pat.isPrefixOf (c :: rest) || isSubstring pat rest

/-- Python `sep.join(xs)`. -/
def py_join (sep : Str) : List Str → Str
  | [] => []
  | [x] => x
  | x :: y :: xs => x ++ sep ++ py_join sep (y :: xs)

/-- Python dict lookup `d[k]` / `d.get(k)` on an association list. -/
def dictLookup (k : Str) : List (Str × List Str) → Option (List Str)
  | [] => none
  | (k2, v) :: rest => if k2 = k then some v else dictLookup k rest

/-! ## Data model -/

/-- One entry of the `/versions` catalog response. -/
structure OncotreeVersion where
  api_identifier : Str
  release_date : Str
  visible : Bool
  description : Str
deriving DecidableEq, Repr

/-- One entry of the `/tumorTypes?version=...` response.  A key that is absent
or JSON-`null` in the source record is modelled as `none` (the code treats
`"color" in d and d["color"] is not None` uniformly).  `externalReferences`
is `none` exactly when the key is absent from the record (the code indexes
`d["externalReferences"]` unconditionally, so absence raises `KeyError`). -/
structure OncotreeConcept where
  code : Str
  name : Str
  level : Int
  color : Option Str
  parent : Option Str
  externalReferences : Option (List (Str × List Str))
deriving DecidableEq, Repr

/-- The value carried by a FHIR concept property (`valueInteger`,
`valueString` or `valueCode`). -/
inductive PropertyValue where
  | valueInteger (i : Int)
  | valueString (s : Str)
  | valueCode (s : Str)
deriving DecidableEq, Repr

structure CodeSystemConceptProperty where
  code : Str
  value : PropertyValue
deriving DecidableEq, Repr

structure CodeSystemConcept where
  code : Str
  display : Str
  property : List CodeSystemConceptProperty
deriving DecidableEq, Repr

/-- One entry of the fixed CodeSystem-level property-definition list. -/
structure PropertyDef where
  code : Str
  description : Str
  type : Str
deriving DecidableEq, Repr

/-- The FHIR CodeSystem resource (the fields the converter populates). -/
structure CodeSystem where
  resourceType : Str
  id : Str
  url : Str
  valueSet : Str
  status : Str
  content : Str
  name : Str
  title : Str
  version : Str
  date : Str
  hierarchyMeaning : Str
  property : List PropertyDef
  concept : List CodeSystemConcept
deriving DecidableEq, Repr

/-- Command-line configuration after argparse (`args`). -/
inductive CliAction where
  | versions
  | convert
  | convertAll
deriving DecidableEq, Repr

structure Args where
  version : Str
  url : Str
  output : Str
  canonical : Str
  valueset : Str
  write_tsv : Bool
  tsv_output : Str
  action : CliAction
deriving DecidableEq, Repr

/-- Payload of a modelled file write. -/
inductive FileContent where
  | rawTumorTypes (rx : List OncotreeConcept)
deriving DecidableEq, Repr

/-- Observable side effects: network fetches and file writes. -/
inductive Event where
  | catalogFetch
  | conceptFetch (version : Str)
  | fileWrite (path : Str) (content : FileContent)
deriving DecidableEq, Repr

inductive ConfigError where
  | unknownVersion
  | missingVersionPlaceholder
deriving DecidableEq, Repr

inductive ConvertError where
  | versionDateNotFound
  | mappingError
deriving DecidableEq, Repr

/-! ## Shared functions (identical in both source files) -/

/-- The special / rolling version identifiers (`convert_oncotree`, both files). -/
def special_versions : List Str :=
  [str "oncotree_latest_stable", str "oncotree_candidate_release",
   str "oncotree_development", str "oncotree_legacy_1.1"]

/-- `convert_concept` (identical in both files): convert one Oncotree record
to a FHIR CodeSystem concept.  Returns `none` when the record has no
`externalReferences` key (the code raises `KeyError` at
`len(oncotree_concept["externalReferences"])`). -/
def convert_concept (oncotree_concept : OncotreeConcept) : Option CodeSystemConcept :=
  match oncotree_concept.externalReferences with
  | none => none
  | some exRefs =>
    let props : List CodeSystemConceptProperty :=
      [⟨str "level", .valueInteger oncotree_concept.level⟩]
    let props := props ++
      (match oncotree_concept.color with
       | some col => [⟨str "color", .valueString col⟩]
       | none => [])
    let props := props ++
      (match oncotree_concept.parent with
       | some p => [⟨str "parent", .valueCode p⟩]
       | none => [])
    let props := props ++
      (if exRefs.length > 0 then
        (match dictLookup (str "UMLS") exRefs with
         | some ids => [⟨str "umls", .valueString (py_join (str ", ") ids)⟩]
         | none => []) ++
        (match dictLookup (str "NCI") exRefs with
         | some ids => [⟨str "nci", .valueString (py_join (str ", ") ids)⟩]
         | none => [])
       else [])
    some ⟨oncotree_concept.code, oncotree_concept.name, props⟩

/-- `date_for_version_string` (identical in both files):
`[v for v in versions if v["api_identifier"] == version_string][0]["release_date"]`.
`none` models the `IndexError` raised when no catalog entry matches. -/
def date_for_version_string (versions : List OncotreeVersion) (version_string : Str) :
    Option Str :=
  ((versions.filter (fun v => decide (v.api_identifier = version_string))).head?).map
    (fun v => v.release_date)

/-- The validation performed at the end of `parse_args` (identical in both
files): a catalog fetch (`get_versions`) is issued first, then the requested
version is checked against the catalog, then for `convert-all` the output
template is checked for the `$version` placeholder.  The first component is
the trace of side effects issued by the validation. -/
def parse_args_validate (args : Args) (catalog : List OncotreeVersion) :
    List Event × Except ConfigError Args :=
  let events := [Event.catalogFetch]
  if args.version ∉ catalog.map (fun v => v.api_identifier) then
    (events, .error .unknownVersion)
  else if args.action = .convertAll ∧ isSubstring (str "$version") args.output = false then
    (events, .error .missingVersionPlaceholder)
  else
    (events, .ok args)

/-! ## oncotree_fhir.py (underscore file) -/

namespace OncotreeFhir

/-- The fixed four-entry CodeSystem property-definition list (both files). -/
def fixed_property_defs : List PropertyDef :=
  [⟨str "color", str "Color in the Oncotree Visualisation", str "string"⟩,
   ⟨str "level", str "Level in the Oncotree hierarchy", str "integer"⟩,
   ⟨str "umls", str "Linked UMLS concept", str "string"⟩,
   ⟨str "nci", str "Linked NCI concept", str "string"⟩]

/-- The header / metadata construction of `convert_oncotree` in
`oncotree_fhir.py` (lines 185-244): derive the id, canonical URL, value-set
URL, name, title and version label from the version identifier, and populate
the fixed fields of the `json_dict`. -/
def codesystem_header (canonical valueset version date_of_version : Str) : CodeSystem :=
  let valueset_url := rstrip_slash valueset
  let codesystem_url := rstrip_slash canonical
  let name := str "oncotree"
  let title := str "OncoTree"
  let st :=
    if version ∈ special_versions then
      (pyReplace version (str "_") (str "-"),
       codesystem_url ++ str "/" ++ str "snapshot",
       valueset_url ++ str "/" ++ str "snapshot",
       str "oncotree-snapshot",
       str "OncoTree Snapshot")
    else
      (pyReplace (pyReplace version (str "oncotree_") (str "")) (str "_") (str ""),
       codesystem_url, valueset_url, name, title)
  { resourceType := str "CodeSystem"
    id := pyReplace st.1 (str "_") (str "-")
    url := st.2.1
    valueSet := st.2.2.1
    status := str "draft"
    content := str "complete"
    name := st.2.2.2.1
    title := st.2.2.2.2
    version := st.1
    date := date_of_version
    hierarchyMeaning := str "is-a"
    property := fixed_property_defs
    concept := [] }

/-- `convert_oncotree` of `oncotree_fhir.py`: fetch the tumor types for the
given version, dump the raw response to `./oncotree.tmp.json`, resolve the
release date from the catalog snapshot, build the header and convert every
fetched record.  The first component is the trace of side effects; the
second is the result (`.error` models an uncaught Python exception). -/
def convert_oncotree (args : Args) (catalog : List OncotreeVersion)
    (version : Str) (rx : List OncotreeConcept) :
    List Event × Except ConvertError CodeSystem :=
  let events : List Event :=
    [Event.conceptFetch version,
     Event.fileWrite (str "./oncotree.tmp.json") (.rawTumorTypes rx)]
  match date_for_version_string catalog version with
  | none => (events, .error .versionDateNotFound)
  | some date_of_version =>
    let cs := codesystem_header args.canonical args.valueset version date_of_version
    match rx.mapM convert_concept with
    | none => (events, .error .mappingError)
    | some concepts => (events, .ok { cs with concept := concepts })

/-- One row of the TSV export. -/
structure TsvRow where
  code : Str
  label : Str
  parent : Option Str
deriving DecidableEq, Repr

/-- `parent_for_code` inside `write_tsv_codesystem`: the `valueCode` of the
first property with code `"parent"`, or `None`. -/
def parent_for_code (c : CodeSystemConcept) : Option Str :=
  match c.property.filter (fun p => decide (p.code = str "parent")) with
  | [] => none
  | p :: _ =>
    match p.value with
    | .valueCode s => some s
    | _ => none

/-- The `tsv_codes` list comprehension of `write_tsv_codesystem`: one row per
concept of the CodeSystem, in document order. -/
def tsv_codes (cs : CodeSystem) : List TsvRow :=
  cs.concept.map (fun c => ⟨c.code, c.display, parent_for_code c⟩)

/-- The rows written by `write_tsv_codesystem` (both files sort the rows with
`tsv_codes.sort(key=lambda c: c["code"])`, a stable sort by the row's code,
then write them without a header line). -/
def write_tsv_codesystem (cs : CodeSystem) : List TsvRow :=
  (tsv_codes cs).mergeSort (fun a b => strLe a.code b.code)

end OncotreeFhir

/-! ## oncotree-fhir.py (hyphen file) -/

namespace OncotreeFhirAlt

/-- The header / metadata construction of `convert_oncotree` in
`oncotree-fhir.py` (lines 154-211).  Differences from `oncotree_fhir.py`:
the special branch appends `"/" + args.version` (not `"/snapshot"`) to both
URLs and sets `name` to the raw identifier; the title is always the literal
`"Oncotree"`; the id is derived from the *original* `args.version` (so for
dated versions it keeps the `oncotree-` prefix and hyphenated date). -/
def codesystem_header (canonical valueset version date_of_version : Str) : CodeSystem :=
  let valueset_url := rstrip_slash valueset
  let codesystem_url := rstrip_slash canonical
  let name := str "oncotree"
  let st :=
    if version ∈ special_versions then
      (pyReplace version (str "_") (str "-"),
       codesystem_url ++ str "/" ++ version,
       valueset_url ++ str "/" ++ version,
       version)
    else
      (pyReplace (pyReplace version (str "oncotree_") (str "")) (str "_") (str ""),
       codesystem_url, valueset_url, name)
  { resourceType := str "CodeSystem"
    id := pyReplace version (str "_") (str "-")
    url := st.2.1
    valueSet := st.2.2.1
    status := str "draft"
    content := str "complete"
    name := st.2.2.2
    title := str "Oncotree"
    version := st.1
    date := date_of_version
    hierarchyMeaning := str "is-a"
    property := OncotreeFhir.fixed_property_defs
    concept := [] }

/-- `convert_oncotree` of `oncotree-fhir.py`: identical pipeline to the
underscore file (fetch, dump `./oncotree.tmp.json`, resolve date, build
header, convert concepts), but the version always comes from `args.version`
and the header is built by this file's rules. -/
def convert_oncotree (args : Args) (catalog : List OncotreeVersion)
    (rx : List OncotreeConcept) :
    List Event × Except ConvertError CodeSystem :=
  let events : List Event :=
    [Event.conceptFetch args.version,
     Event.fileWrite (str "./oncotree.tmp.json") (.rawTumorTypes rx)]
  match date_for_version_string catalog args.version with
  | none => (events, .error .versionDateNotFound)
  | some date_of_version =>
    let cs := codesystem_header args.canonical args.valueset args.version date_of_version
    match rx.mapM convert_concept with
    | none => (events, .error .mappingError)
    | some concepts => (events, .ok { cs with concept := concepts })

end OncotreeFhirAlt

/-! ## Comparator lemmas -/

/-- `strLe` is total. -/
theorem strLe_total : ∀ (a b : Str), (strLe a b || strLe b a) = true
  | [], _ => by simp [strLe]
  | _ :: _, [] => by simp [strLe]
  | x :: xs, y :: ys => by
    by_cases h1 : x < y
    · simp [strLe, h1]
    · by_cases h2 : y < x
      · simp [strLe, h1, h2]
      · simpa [strLe, h1, h2] using strLe_total xs ys

/-- `strLe` is transitive. -/
theorem strLe_trans : ∀ (a b c : Str),
    strLe a b = true → strLe b c = true → strLe a c = true
  | [], _, _, _, _ => by simp [strLe]
  | _ :: _, [], _, h1, _ => by simp [strLe] at h1
  | _ :: _, _ :: _, [], _, h2 => by simp [strLe] at h2
  | x :: xs, y :: ys, z :: zs, h1, h2 => by
    simp only [strLe] at h1 h2 ⊢
    rcases lt_trichotomy x y with hxy | hxy | hxy
    · rcases lt_trichotomy y z with hyz | hyz | hyz
      · simp [lt_trans hxy hyz]
      · subst hyz; simp [hxy]
      · simp [asymm hyz, hyz] at h2
    · subst hxy
      rcases lt_trichotomy x z with hxz | hxz | hxz
      · simp [hxz]
      · subst hxz
        simp only [lt_irrefl, if_false] at h1 h2 ⊢
        exact strLe_trans xs ys zs h1 h2
      · simp [asymm hxz, hxz] at h2
    · simp [asymm hxy, hxy] at h1

/-! ## Sample inputs used by witnesses and counterexamples -/

def sample_args : Args :=
  { version := str "oncotree_latest_stable"
    url := str "http://oncotree.mskcc.org/api"
    output := str "./$version.json"
    canonical := str "http://oncotree.mskcc.org/fhir/CodeSystem"
    valueset := str "http://oncotree.mskcc.org/fhir/ValueSet"
    write_tsv := false
    tsv_output := str "./$version.tsv"
    action := .convert }

def sample_catalog : List OncotreeVersion :=
  [⟨str "oncotree_latest_stable", str "2021-11-02", true, str "latest stable"⟩,
   ⟨str "oncotree_2021_11_01", str "2021-11-01", true, str "November 2021"⟩]

/-- A CodeSystem whose concept list is not sorted by code. -/
def sample_codesystem : CodeSystem :=
  { resourceType := str "CodeSystem"
    id := str "20211101"
    url := str "http://oncotree.mskcc.org/fhir/CodeSystem"
    valueSet := str "http://oncotree.mskcc.org/fhir/ValueSet"
    status := str "draft"
    content := str "complete"
    name := str "oncotree"
    title := str "OncoTree"
    version := str "20211101"
    date := str "2021-11-01"
    hierarchyMeaning := str "is-a"
    property := OncotreeFhir.fixed_property_defs
    concept :=
      [⟨str "TISSUE", str "Tissue", [⟨str "level", .valueInteger 0⟩]⟩,
       ⟨str "AA", str "Aggregated", [⟨str "level", .valueInteger 1⟩,
                                     ⟨str "parent", .valueCode (str "TISSUE")⟩]⟩] }

/-! ## C1 -/

/-- C1: for every built document, the TSV export yields exactly one row per
concept, every row's code is the code of some concept of the document, and
the row sequence is sorted ascending by code (for any concept order). -/
theorem write_tsv_codesystem_rows_sorted (cs : CodeSystem) :
    (OncotreeFhir.write_tsv_codesystem cs).length = cs.concept.length ∧
    (∀ r ∈ OncotreeFhir.write_tsv_codesystem cs,
      r.code ∈ cs.concept.map (fun c => c.code)) ∧
    List.Pairwise (fun a b => strLe a.code b.code = true)
      (OncotreeFhir.write_tsv_codesystem cs) := by
  refine ⟨?_, ?_, ?_⟩
  · rw [OncotreeFhir.write_tsv_codesystem, (List.mergeSort_perm _ _).length_eq]
    simp [OncotreeFhir.tsv_codes]
  · intro r hr
    rw [OncotreeFhir.write_tsv_codesystem, List.mem_mergeSort] at hr
    simp only [OncotreeFhir.tsv_codes, List.mem_map] at hr
    obtain ⟨c, hc, rfl⟩ := hr
    exact List.mem_map.mpr ⟨c, hc, rfl⟩
  · exact @List.sorted_mergeSort OncotreeFhir.TsvRow
      (fun a b => strLe a.code b.code)
      (fun a b c hab hbc => strLe_trans _ _ _ hab hbc)
      (fun a b => strLe_total _ _)
      (OncotreeFhir.tsv_codes cs)

/-- C1 witness: the specification instantiated on a concrete document whose
concepts are not in code order. -/
theorem write_tsv_codesystem_rows_sorted_witness :
    (OncotreeFhir.write_tsv_codesystem sample_codesystem).length =
      sample_codesystem.concept.length ∧
    (∀ r ∈ OncotreeFhir.write_tsv_codesystem sample_codesystem,
      r.code ∈ sample_codesystem.concept.map (fun c => c.code)) ∧
    List.Pairwise (fun a b => strLe a.code b.code = true)
      (OncotreeFhir.write_tsv_codesystem sample_codesystem) :=
  write_tsv_codesystem_rows_sorted sample_codesystem

/-! ## C2 -/

/-- The codes of a concept's property list. -/
def propertyCodes (c : CodeSystemConcept) : List Str := c.property.map (fun p => p.code)

/-- A source record with no `externalReferences` key. -/
def record_absent_extRefs : OncotreeConcept :=
  ⟨str "TISSUE", str "Tissue", 0, none, none, none⟩

/-- A source record with a present but empty `externalReferences` map. -/
def record_empty_extRefs : OncotreeConcept :=
  ⟨str "TISSUE", str "Tissue", 0, none, none, some []⟩

/-- C2 counterexample: on a record whose external-reference map is absent
(no `externalReferences` key), the mapping does not succeed — the code
indexes `oncotree_concept["externalReferences"]` unconditionally, so the
conversion fails (KeyError) instead of producing a concept without
`umls`/`nci` properties. -/
theorem convert_concept_absent_extRefs_fails :
    record_absent_extRefs.externalReferences = none ∧
    convert_concept record_absent_extRefs = none :=
  ⟨rfl, rfl⟩

/-- C2 amended: for every source record whose external-reference map is
present but empty, the mapped concept carries neither a `umls` nor a `nci`
property and the mapping succeeds; when the `externalReferences` key is
absent, the mapping fails. -/
theorem convert_concept_empty_extRefs_omits_umls_nci (r : OncotreeConcept) :
    (r.externalReferences = some [] →
      ∃ c, convert_concept r = some c ∧
        str "umls" ∉ propertyCodes c ∧ str "nci" ∉ propertyCodes c) ∧
    (r.externalReferences = none → convert_concept r = none) := by
  obtain ⟨code, name, level, color, parent, ext⟩ := r
  constructor
  · intro h
    simp only at h
    subst h
    rcases color with _ | col <;> rcases parent with _ | par <;>
      exact ⟨_, rfl, by simp [convert_concept, propertyCodes, str], by
        simp [convert_concept, propertyCodes, str]⟩
  · intro h
    simp only at h
    subst h
    rfl

/-- C2 witness: both parts of the amended claim evaluated on concrete
records. -/
theorem convert_concept_empty_extRefs_omits_umls_nci_witness :
    (∃ c, convert_concept record_empty_extRefs = some c ∧
      str "umls" ∉ propertyCodes c ∧ str "nci" ∉ propertyCodes c) ∧
    convert_concept record_absent_extRefs = none :=
  ⟨(convert_concept_empty_extRefs_omits_umls_nci record_empty_extRefs).1 rfl,
   (convert_concept_empty_extRefs_omits_umls_nci record_absent_extRefs).2 rfl⟩

/-! ## C4 -/

/-- A convert-all configuration whose output template lacks `$version`. -/
def c4_args : Args :=
  { sample_args with output := str "./oncotree.json", action := .convertAll }

/-- C4 counterexample: with a known version, `convert-all` and an output
template without `$version`, the validation does report the configuration
error — but the catalog fetch (`get_versions`) has already been issued
(it is in the trace), so the error is not detected before any network
call. -/
theorem convert_all_placeholder_cex :
    (parse_args_validate c4_args sample_catalog).2 =
      Except.error ConfigError.missingVersionPlaceholder ∧
    Event.catalogFetch ∈ (parse_args_validate c4_args sample_catalog).1 := by
  constructor
  · rfl
  · show Event.catalogFetch ∈ [Event.catalogFetch]
    exact List.mem_singleton_self _

/-- C4 amended: when convert-all is requested with an output template that
lacks the `$version` placeholder (and the requested version is known), a
ConfigurationError is raised before any concept (tumorTypes) fetch — but
after the catalog fetch, which `parse_args` issues to validate the version
before the placeholder check. -/
theorem convert_all_placeholder_check (args : Args) (catalog : List OncotreeVersion)
    (h1 : args.version ∈ catalog.map (fun v => v.api_identifier))
    (h2 : args.action = .convertAll)
    (h3 : isSubstring (str "$version") args.output = false) :
    (parse_args_validate args catalog).2 =
      Except.error ConfigError.missingVersionPlaceholder ∧
    (parse_args_validate args catalog).1 = [Event.catalogFetch] ∧
    ∀ v, Event.conceptFetch v ∉ (parse_args_validate args catalog).1 := by
  have hres : parse_args_validate args catalog =
      ([Event.catalogFetch], Except.error ConfigError.missingVersionPlaceholder) := by
    simp only [parse_args_validate]
    rw [if_neg (not_not_intro h1), if_pos ⟨h2, h3⟩]
  rw [hres]
  exact ⟨rfl, rfl, fun v hv => by simp at hv⟩

/-- C4 witness: the amended claim evaluated on a concrete configuration. -/
theorem convert_all_placeholder_check_witness :
    (parse_args_validate c4_args sample_catalog).2 =
      Except.error ConfigError.missingVersionPlaceholder ∧
    (parse_args_validate c4_args sample_catalog).1 = [Event.catalogFetch] ∧
    ∀ v, Event.conceptFetch v ∉ (parse_args_validate c4_args sample_catalog).1 :=
  convert_all_placeholder_check c4_args sample_catalog (by decide) rfl (by decide)

/-! ## C5 -/

/-- C5: the release-date lookup fails exactly when the identifier is absent
from the fetched catalog snapshot; when present, it returns the release
date of a catalog entry carrying that identifier. -/
theorem date_for_version_string_found_iff (versions : List OncotreeVersion) (s : Str) :
    ((∀ v ∈ versions, v.api_identifier ≠ s) →
      date_for_version_string versions s = none) ∧
    ((∃ v ∈ versions, v.api_identifier = s) →
      ∃ w ∈ versions, w.api_identifier = s ∧
        date_for_version_string versions s = some w.release_date) := by
  constructor
  · intro h
    have hnil : versions.filter (fun v => decide (v.api_identifier = s)) = [] := by
      rw [List.filter_eq_nil_iff]
      intro v hv
      simp [h v hv]
    rw [date_for_version_string, hnil]
    rfl
  · rintro ⟨v, hv, hvs⟩
    rcases hf : versions.filter (fun v => decide (v.api_identifier = s)) with _ | ⟨w, rest⟩
    · exfalso
      have hmem : v ∈ versions.filter (fun v => decide (v.api_identifier = s)) :=
        List.mem_filter.mpr ⟨hv, by simp [hvs]⟩
      rw [hf] at hmem
      exact absurd hmem (List.not_mem_nil v)
    · have hw : w ∈ versions.filter (fun v => decide (v.api_identifier = s)) := by
        rw [hf]; exact List.mem_cons_self w rest
      rw [List.mem_filter] at hw
      refine ⟨w, hw.1, by simpa using hw.2, ?_⟩
      rw [date_for_version_string, hf]
      rfl

/-- C5 witness: both directions evaluated on a concrete catalog snapshot. -/
theorem date_for_version_string_found_iff_witness :
    date_for_version_string sample_catalog (str "oncotree_2015_01_01") = none ∧
    (∃ w ∈ sample_catalog, w.api_identifier = str "oncotree_2021_11_01" ∧
      date_for_version_string sample_catalog (str "oncotree_2021_11_01") =
        some w.release_date) :=
  ⟨(date_for_version_string_found_iff sample_catalog (str "oncotree_2015_01_01")).1
      (by decide),
   (date_for_version_string_found_iff sample_catalog (str "oncotree_2021_11_01")).2
      ⟨sample_catalog[1], by decide, by decide⟩⟩

/-! ## C7 -/

/-- C7: for the dated identifier `oncotree_2021_11_01` the version label of
the built document is `20211101`; in general, any identifier outside the
special set gets the literal prefix `oncotree_` removed and then all
underscores removed. -/
theorem dated_version_label_20211101 (canonical valueset date : Str) :
    (OncotreeFhir.codesystem_header canonical valueset
        (str "oncotree_2021_11_01") date).version = str "20211101" ∧
    ∀ v, v ∉ special_versions →
      (OncotreeFhir.codesystem_header canonical valueset v date).version =
        pyReplace (pyReplace v (str "oncotree_") (str "")) (str "_") (str "") := by
  constructor
  · rfl
  · intro v hv
    simp only [OncotreeFhir.codesystem_header]
    rw [if_neg hv]

/-- C7 witness: both conjuncts at a concrete configuration. -/
theorem dated_version_label_20211101_witness :
    (OncotreeFhir.codesystem_header (str "http://oncotree.mskcc.org/fhir/CodeSystem")
        (str "http://oncotree.mskcc.org/fhir/ValueSet")
        (str "oncotree_2021_11_01") (str "2021-11-01")).version = str "20211101" ∧
    (OncotreeFhir.codesystem_header (str "http://oncotree.mskcc.org/fhir/CodeSystem")
        (str "http://oncotree.mskcc.org/fhir/ValueSet")
        (str "oncotree_2020_10_01") (str "2020-10-01")).version =
      pyReplace (pyReplace (str "oncotree_2020_10_01") (str "oncotree_") (str ""))
        (str "_") (str "") :=
  ⟨(dated_version_label_20211101 _ _ _).1,
   (dated_version_label_20211101 _ _ _).2 (str "oncotree_2020_10_01") (by decide)⟩

/-! ## C9 -/

/-- C9: every call of `convert_oncotree` first issues the tumor-types fetch
and then writes the raw response to the fixed path `./oncotree.tmp.json`
(an extra file side effect, re-written on each call); the write is in the
trace even when the conversion afterwards fails. -/
theorem convert_oncotree_writes_tmp_json (args : Args) (catalog : List OncotreeVersion)
    (version : Str) (rx : List OncotreeConcept) :
    (OncotreeFhir.convert_oncotree args catalog version rx).1 =
      [Event.conceptFetch version,
       Event.fileWrite (str "./oncotree.tmp.json") (FileContent.rawTumorTypes rx)] ∧
    ∀ e, (OncotreeFhir.convert_oncotree args catalog version rx).2 = Except.error e →
      Event.fileWrite (str "./oncotree.tmp.json") (FileContent.rawTumorTypes rx) ∈
        (OncotreeFhir.convert_oncotree args catalog version rx).1 := by
  have htrace : (OncotreeFhir.convert_oncotree args catalog version rx).1 =
      [Event.conceptFetch version,
       Event.fileWrite (str "./oncotree.tmp.json") (FileContent.rawTumorTypes rx)] := by
    simp only [OncotreeFhir.convert_oncotree]
    rcases date_for_version_string catalog version with _ | d
    · rfl
    · rcases rx.mapM convert_concept with _ | cs <;> rfl
  refine ⟨htrace, fun e _ => ?_⟩
  rw [htrace]
  simp

/-- C9 witness: the trace of a concrete call that fails (empty catalog, so
the release-date lookup raises) still contains the tmp-file write. -/
theorem convert_oncotree_writes_tmp_json_witness :
    (OncotreeFhir.convert_oncotree sample_args [] (str "oncotree_latest_stable") []).1 =
      [Event.conceptFetch (str "oncotree_latest_stable"),
       Event.fileWrite (str "./oncotree.tmp.json") (FileContent.rawTumorTypes [])] ∧
    Event.fileWrite (str "./oncotree.tmp.json") (FileContent.rawTumorTypes []) ∈
      (OncotreeFhir.convert_oncotree sample_args [] (str "oncotree_latest_stable") []).1 :=
  ⟨(convert_oncotree_writes_tmp_json sample_args [] (str "oncotree_latest_stable") []).1,
   (convert_oncotree_writes_tmp_json sample_args [] (str "oncotree_latest_stable") []).2
     ConvertError.versionDateNotFound rfl⟩

/-! ## C3 -/

/-- C3: for every identifier in the special/rolling set, the built document's
id is the identifier with underscores replaced by hyphens, its canonical and
value-set URLs end in the fixed segment `/snapshot`, its name and title are
the fixed snapshot labels, and its version label is the hyphenated
identifier (not the prefix-stripped dated label). -/
theorem special_version_header_snapshot (canonical valueset date v : Str)
    (h : v ∈ special_versions) :
    (OncotreeFhir.codesystem_header canonical valueset v date).id =
      v.map (fun c => if c = '_' then '-' else c) ∧
    List.IsSuffix (str "/snapshot")
      (OncotreeFhir.codesystem_header canonical valueset v date).url ∧
    List.IsSuffix (str "/snapshot")
      (OncotreeFhir.codesystem_header canonical valueset v date).valueSet ∧
    (OncotreeFhir.codesystem_header canonical valueset v date).name =
      str "oncotree-snapshot" ∧
    (OncotreeFhir.codesystem_header canonical valueset v date).title =
      str "OncoTree Snapshot" ∧
    (OncotreeFhir.codesystem_header canonical valueset v date).version =
      v.map (fun c => if c = '_' then '-' else c) := by
  fin_cases h <;>
    exact ⟨rfl,
           ⟨rstrip_slash canonical,
            (List.append_assoc (rstrip_slash canonical) (str "/") (str "snapshot")).symm⟩,
           ⟨rstrip_slash valueset,
            (List.append_assoc (rstrip_slash valueset) (str "/") (str "snapshot")).symm⟩,
           rfl, rfl, rfl⟩

/-- C3 witness: the special-version claim evaluated for
`oncotree_latest_stable` at the default configuration. -/
theorem special_version_header_snapshot_witness :
    (OncotreeFhir.codesystem_header (str "http://oncotree.mskcc.org/fhir/CodeSystem")
        (str "http://oncotree.mskcc.org/fhir/ValueSet")
        (str "oncotree_latest_stable") (str "2021-11-02")).id =
      (str "oncotree_latest_stable").map (fun c => if c = '_' then '-' else c) ∧
    List.IsSuffix (str "/snapshot")
      (OncotreeFhir.codesystem_header (str "http://oncotree.mskcc.org/fhir/CodeSystem")
        (str "http://oncotree.mskcc.org/fhir/ValueSet")
        (str "oncotree_latest_stable") (str "2021-11-02")).url ∧
    List.IsSuffix (str "/snapshot")
      (OncotreeFhir.codesystem_header (str "http://oncotree.mskcc.org/fhir/CodeSystem")
        (str "http://oncotree.mskcc.org/fhir/ValueSet")
        (str "oncotree_latest_stable") (str "2021-11-02")).valueSet ∧
    (OncotreeFhir.codesystem_header (str "http://oncotree.mskcc.org/fhir/CodeSystem")
        (str "http://oncotree.mskcc.org/fhir/ValueSet")
        (str "oncotree_latest_stable") (str "2021-11-02")).name =
      str "oncotree-snapshot" ∧
    (OncotreeFhir.codesystem_header (str "http://oncotree.mskcc.org/fhir/CodeSystem")
        (str "http://oncotree.mskcc.org/fhir/ValueSet")
        (str "oncotree_latest_stable") (str "2021-11-02")).title =
      str "OncoTree Snapshot" ∧
    (OncotreeFhir.codesystem_header (str "http://oncotree.mskcc.org/fhir/CodeSystem")
        (str "http://oncotree.mskcc.org/fhir/ValueSet")
        (str "oncotree_latest_stable") (str "2021-11-02")).version =
      (str "oncotree_latest_stable").map (fun c => if c = '_' then '-' else c) :=
  special_version_header_snapshot _ _ _ _ (by decide)

/-! ## C6 -/

/-- C6: for every source record that maps (its `externalReferences` key is
present, cf. C2), the mapped concept's property codes are exactly the fixed
sequence level, color, parent, umls, nci filtered by presence: `level` is
always there, and `color` / `parent` / `umls` / `nci` appear exactly when the
corresponding source field or external-reference key is present and
non-null. -/
theorem convert_concept_property_order (r : OncotreeConcept)
    (m : List (Str × List Str)) (h : r.externalReferences = some m) :
    ∃ c, convert_concept r = some c ∧
      str "level" ∈ propertyCodes c ∧
      propertyCodes c =
        [str "level"] ++
        (if r.color.isSome then [str "color"] else []) ++
        (if r.parent.isSome then [str "parent"] else []) ++
        (if (dictLookup (str "UMLS") m).isSome then [str "umls"] else []) ++
        (if (dictLookup (str "NCI") m).isSome then [str "nci"] else []) := by
  obtain ⟨code, name, level, color, parent, ext⟩ := r
  simp only at h
  subst h
  refine ⟨_, rfl, ?_, ?_⟩
  · rcases color with _ | col <;> rcases parent with _ | par <;>
      simp [convert_concept, propertyCodes]
  · rcases m with _ | ⟨q, rest⟩
    · rcases color with _ | col <;> rcases parent with _ | par <;>
        simp [convert_concept, propertyCodes, dictLookup]
    · rcases hU : dictLookup (str "UMLS") (q :: rest) with _ | u <;>
        rcases hN : dictLookup (str "NCI") (q :: rest) with _ | n <;>
        rcases color with _ | col <;> rcases parent with _ | par <;>
        simp [convert_concept, propertyCodes, hU, hN]

/-- A source record with color, parent and multiple UMLS/NCI references
(modelled on the SRCCR concept mentioned in the source comments). -/
def record_full : OncotreeConcept :=
  ⟨str "SRCCR", str "Signet Ring Cell Type of the Colon and Rectum", 4,
   some (str "SaddleBrown"), some (str "COADREAD"),
   some [(str "UMLS", [str "C1266513", str "CL449264"]),
         (str "NCI", [str "C7967", str "C95602"])]⟩

/-- C6 witness: the property-order claim evaluated on a concrete record with
all optional fields present. -/
theorem convert_concept_property_order_witness :
    ∃ c, convert_concept record_full = some c ∧
      str "level" ∈ propertyCodes c ∧
      propertyCodes c =
        [str "level"] ++
        (if record_full.color.isSome then [str "color"] else []) ++
        (if record_full.parent.isSome then [str "parent"] else []) ++
        (if (dictLookup (str "UMLS")
              [(str "UMLS", [str "C1266513", str "CL449264"]),
               (str "NCI", [str "C7967", str "C95602"])]).isSome
          then [str "umls"] else []) ++
        (if (dictLookup (str "NCI")
              [(str "UMLS", [str "C1266513", str "CL449264"]),
               (str "NCI", [str "C7967", str "C95602"])]).isSome
          then [str "nci"] else []) :=
  convert_concept_property_order record_full _ rfl

/-! ## C8 -/

/-- The value of the first property of a concept carrying the given code
("the umls property value" of the claim). -/
def getPropertyValue (k : Str) (c : CodeSystemConcept) : Option PropertyValue :=
  match c.property.filter (fun p => decide (p.code = k)) with
  | [] => none
  | p :: _ => some p.value

/-- C8: when the external-reference map carries `UMLS = [a, b]`, the mapped
concept's `umls` property value is the single string `a ++ ", " ++ b`,
regardless of whether an `NCI` key is present; the same join rule applies to
`NCI` independently of `UMLS`. -/
theorem convert_concept_umls_nci_join (r : OncotreeConcept)
    (m : List (Str × List Str)) (h : r.externalReferences = some m) :
    (∀ a b, dictLookup (str "UMLS") m = some [a, b] →
      ∃ c, convert_concept r = some c ∧
        getPropertyValue (str "umls") c =
          some (.valueString (a ++ str ", " ++ b))) ∧
    (∀ a b, dictLookup (str "NCI") m = some [a, b] →
      ∃ c, convert_concept r = some c ∧
        getPropertyValue (str "nci") c =
          some (.valueString (a ++ str ", " ++ b))) := by
  obtain ⟨code, name, level, color, parent, ext⟩ := r
  simp only at h
  subst h
  constructor
  · intro a b hU
    rcases m with _ | ⟨q, rest⟩
    · cases hU
    · refine ⟨_, rfl, ?_⟩
      rcases hN : dictLookup (str "NCI") (q :: rest) with _ | nids <;>
        rcases color with _ | col <;> rcases parent with _ | par <;>
        simp +decide [convert_concept, getPropertyValue, hU, hN, py_join]
  · intro a b hN
    rcases m with _ | ⟨q, rest⟩
    · cases hN
    · refine ⟨_, rfl, ?_⟩
      rcases hU : dictLookup (str "UMLS") (q :: rest) with _ | uids <;>
        rcases color with _ | col <;> rcases parent with _ | par <;>
        simp +decide [convert_concept, getPropertyValue, hU, hN, py_join]

/-- A source record whose external-reference map has a `UMLS` key only. -/
def record_umls_only : OncotreeConcept :=
  ⟨str "XYZ", str "UMLS Only Node", 2, none, some (str "TISSUE"),
   some [(str "UMLS", [str "C0001", str "C0002"])]⟩

/-- A source record whose external-reference map has an `NCI` key only. -/
def record_nci_only : OncotreeConcept :=
  ⟨str "ZYX", str "NCI Only Node", 3, some (str "Blue"), none,
   some [(str "NCI", [str "C4038", str "C131576"])]⟩

/-- C8 witness: the join rule evaluated on a record carrying only a UMLS key
(two identifiers) and on a record carrying only an NCI key. -/
theorem convert_concept_umls_nci_join_witness :
    (∃ c, convert_concept record_umls_only = some c ∧
      getPropertyValue (str "umls") c =
        some (.valueString (str "C0001" ++ str ", " ++ str "C0002"))) ∧
    (∃ c, convert_concept record_nci_only = some c ∧
      getPropertyValue (str "nci") c =
        some (.valueString (str "C4038" ++ str ", " ++ str "C131576"))) :=
  ⟨(convert_concept_umls_nci_join record_umls_only _ rfl).1 _ _ (by decide),
   (convert_concept_umls_nci_join record_nci_only _ rfl).2 _ _ (by decide)⟩

/-! ## C10 -/

/-- C10 counterexample: at the default configuration and the dated version
`oncotree_2021_11_01`, the two source files build documents that differ in
both the `id` field (`"20211101"` vs `"oncotree-2021-11-01"`) and the
`title` field (`"OncoTree"` vs `"Oncotree"`) — so their header construction
is not behaviourally equivalent. -/
theorem convert_oncotree_headers_differ :
    (OncotreeFhir.codesystem_header (str "http://oncotree.mskcc.org/fhir/CodeSystem")
        (str "http://oncotree.mskcc.org/fhir/ValueSet")
        (str "oncotree_2021_11_01") (str "2021-11-01")).id ≠
      (OncotreeFhirAlt.codesystem_header (str "http://oncotree.mskcc.org/fhir/CodeSystem")
        (str "http://oncotree.mskcc.org/fhir/ValueSet")
        (str "oncotree_2021_11_01") (str "2021-11-01")).id ∧
    (OncotreeFhir.codesystem_header (str "http://oncotree.mskcc.org/fhir/CodeSystem")
        (str "http://oncotree.mskcc.org/fhir/ValueSet")
        (str "oncotree_2021_11_01") (str "2021-11-01")).title ≠
      (OncotreeFhirAlt.codesystem_header (str "http://oncotree.mskcc.org/fhir/CodeSystem")
        (str "http://oncotree.mskcc.org/fhir/ValueSet")
        (str "oncotree_2021_11_01") (str "2021-11-01")).title := by
  decide

/-- C10 amended: for every non-special version identifier, the two files'
conversion functions produce documents agreeing on the url, valueSet, name,
version and date header fields (the id and title fields differ in general,
as does the whole header for special identifiers). -/
theorem convert_oncotree_headers_agree_nonspecial (args : Args)
    (catalog : List OncotreeVersion) (v : Str) (rx : List OncotreeConcept)
    (cs1 cs2 : CodeSystem)
    (hv : v ∉ special_versions)
    (h1 : (OncotreeFhir.convert_oncotree args catalog v rx).2 = Except.ok cs1)
    (h2 : (OncotreeFhirAlt.convert_oncotree { args with version := v } catalog rx).2 =
      Except.ok cs2) :
    cs1.url = cs2.url ∧ cs1.valueSet = cs2.valueSet ∧ cs1.name = cs2.name ∧
    cs1.version = cs2.version ∧ cs1.date = cs2.date := by
  simp only [OncotreeFhir.convert_oncotree, OncotreeFhirAlt.convert_oncotree] at h1 h2
  rcases hd : date_for_version_string catalog v with _ | d
  · rw [hd] at h1
    cases h1
  · rw [hd] at h1 h2
    rcases hm : rx.mapM convert_concept with _ | cpts
    · rw [hm] at h1
      cases h1
    · rw [hm] at h1 h2
      simp only [Except.ok.injEq] at h1 h2
      subst h1
      subst h2
      simp only [OncotreeFhir.codesystem_header, OncotreeFhirAlt.codesystem_header]
      rw [if_neg hv, if_neg hv]
      exact ⟨rfl, rfl, rfl, rfl, trivial⟩

def c10_args : Args := { sample_args with version := str "oncotree_2021_11_01" }

/-- The document produced by the underscore file for the dated version at the
default configuration (empty concept list). -/
def c10_cs1 : CodeSystem :=
  { OncotreeFhir.codesystem_header c10_args.canonical c10_args.valueset
      (str "oncotree_2021_11_01") (str "2021-11-01") with concept := [] }

/-- The document produced by the hyphen file for the same input. -/
def c10_cs2 : CodeSystem :=
  { OncotreeFhirAlt.codesystem_header c10_args.canonical c10_args.valueset
      (str "oncotree_2021_11_01") (str "2021-11-01") with concept := [] }

/-- C10 witness: the amended agreement evaluated on a concrete run of both
conversion functions. -/
theorem convert_oncotree_headers_agree_nonspecial_witness :
    c10_cs1.url = c10_cs2.url ∧ c10_cs1.valueSet = c10_cs2.valueSet ∧
    c10_cs1.name = c10_cs2.name ∧ c10_cs1.version = c10_cs2.version ∧
    c10_cs1.date = c10_cs2.date :=
  convert_oncotree_headers_agree_nonspecial c10_args sample_catalog
    (str "oncotree_2021_11_01") [] c10_cs1 c10_cs2 (by decide) rfl rfl
